import Mathlib

set_option maxHeartbeats 1600000
set_option maxRecDepth 16000

/-!
Verification development for the palette derivation and harmonization engine
of the JlessOS colorscheming scripts.

The engine lives in two Python entry points:
  - `colorscheming/generate_material_theme.py`  (the "cs" engine below)
  - `material-theme/generate_colors_material.py` (the "mt" engine below)
plus per-application renderer modules; the renderer helper relevant here is
`colorscheming/generate_lazygit_theme.py` (`configure_git_diff_colors`).

Modelling conventions, used throughout:
  - A color is modelled by its HCT coordinates (hue, chroma, tone) as exact
    rationals.  Both engines do all of their per-slot arithmetic directly in
    HCT space; the packed-ARGB / hex round trips at the boundary
    (`Hct.from_int`, `to_int`, `hex_to_argb`, `argb_to_hex`, provided by the
    external `materialyoucolor` library) are treated as the identity on the
    HCT coordinates, and the final gamut mapping of `Hct.from_hct` (which
    clamps the requested chroma/tone into the displayable gamut) is not
    modelled: a slot is modelled by the exact coordinates the engine requests.
  - Python float arithmetic is modelled as exact rational / real arithmetic.
  - Python dicts are modelled as association lists (first match wins, which
    matches dict semantics here because all key lists are duplicate-free).
-/

/-- A color in the perceptual hue/chroma/tone (HCT) representation.
The engines construct every derived color through `Hct.from_hct(h, c, t)`;
this record holds exactly those three requested coordinates. -/
structure Hct where
  hue : ℚ
  chroma : ℚ
  tone : ℚ
deriving DecidableEq, Repr

/-- Modelled from the spec: `sanitize_degrees_double` from
`materialyoucolor.utils.math_utils`, imported but not contained in `src/`.
Python computes `degrees % 360.0` and adds `360` when negative, i.e. the
representative of `x` modulo 360 lying in `[0, 360)`. -/
def sanitizeDegrees (x : ℚ) : ℚ :=
  x - 360 * (⌊x / 360⌋ : ℚ)

/-- Modelled from the spec: `difference_degrees` from
`materialyoucolor.utils.math_utils` (not in `src/`): the distance between two
hue angles along the shorter arc, `180 - abs(abs(a - b) - 180)`. -/
def differenceDegrees (a b : ℚ) : ℚ :=
  180 - |(|a - b|) - 180|

/-- Modelled from the spec: `rotation_direction` from
`materialyoucolor.utils.math_utils` (not in `src/`): `1` when rotating the
first hue clockwise (increasing) reaches the second hue along the shorter
arc, `-1` otherwise. -/
def rotationDirection (fromHue toHue : ℚ) : ℚ :=
  if sanitizeDegrees (toHue - fromHue) ≤ 180 then 1 else -1

/-- Function `harmonize` from `colorscheming/generate_material_theme.py` (lines
105-114; the identical function also appears in
`material-theme/generate_colors_material.py` lines 67-75): rotate the design
hue of the design color toward the hue of the source color by
`min(difference * harmony, threshold)` degrees in the direction given by
`rotation_direction`, keeping chroma and tone. -/
def harmonize (designColor sourceColor : Hct) (threshold harmony : ℚ) : Hct :=
  { hue := sanitizeDegrees (designColor.hue +
      min (differenceDegrees designColor.hue sourceColor.hue * harmony) threshold *
        rotationDirection designColor.hue sourceColor.hue),
    chroma := designColor.chroma,
    tone := designColor.tone }

/-- Function `boost_chroma_tone` from both engine files: multiply chroma and tone by
given factors, keeping hue. -/
def boostChromaTone (c : Hct) (chroma tone : ℚ) : Hct :=
  { hue := c.hue, chroma := c.chroma * chroma, tone := c.tone * tone }

/-- The engine parameters read by the per-slot terminal harmonization loop of
`material-theme/generate_colors_material.py` (argparse definitions, lines
27-35): scheme selector, harmony, harmonize_threshold, term_fg_boost,
blend_bg_fg and dark-mode flag.  `harmonizeThreshold` is carried because the
command line defines it; whether the loop reads it is settled below. -/
structure MtArgs where
  scheme : String
  harmony : ℚ
  harmonizeThreshold : ℚ
  termFgBoost : ℚ
  blendBgFg : Bool
  darkmode : Bool
deriving DecidableEq, Repr

/-- Effective harmony of the mt loop (line 222): `min(args.harmony * 1.3, 0.95)`. -/
def effectiveHarmony (harmony : ℚ) : ℚ :=
  min (harmony * 1.3) 0.95

/-- Target hue computation of the mt loop (lines 217-232): move the raw
(unwrapped) hue difference toward the accent hue by the effective harmony,
then clamp the result to at most 60 degrees from the accent hue (choosing the
side by `(target - base + 360) % 360 > 180`). -/
def mtTargetHue (harmony : ℚ) (baseHue srcHue : ℚ) : ℚ :=
  let hueDiff := srcHue - baseHue
  let targetHue := baseHue + hueDiff * (1 - effectiveHarmony harmony)
  let hueDistance := |sanitizeDegrees (targetHue - baseHue + 180) - 180|
  if hueDistance > 60 then
    if sanitizeDegrees (targetHue - baseHue + 360) > 180 then baseHue - 60
    else baseHue + 60
  else targetHue

/-- Per-family chroma/tone table of the mt loop (lines 234-262): absolute
chroma and tone targets per slot with dark/light variants; the fallback keeps
the source tone at chroma 90. -/
def mtTargetChromaTone (slot : String) (darkmode : Bool) (srcTone : ℚ) : ℚ × ℚ :=
  if slot = "term1" ∨ slot = "term9" then (90, if darkmode then 65 else 50)
  else if slot = "term2" ∨ slot = "term10" then (95, if darkmode then 70 else 45)
  else if slot = "term3" ∨ slot = "term11" then (90, if darkmode then 75 else 55)
  else if slot = "term4" ∨ slot = "term12" then (95, if darkmode then 70 else 50)
  else if slot = "term5" ∨ slot = "term13" then (92, if darkmode then 68 else 48)
  else if slot = "term6" ∨ slot = "term14" then (95, if darkmode then 72 else 52)
  else if slot = "term7" then (20, if darkmode then 85 else 30)
  else if slot = "term15" then (30, if darkmode then 90 else 25)
  else (90, srcTone)

/-- One iteration of the mt per-slot terminal harmonization loop
(`material-theme/generate_colors_material.py` lines 195-269) on the HCT
coordinates of the slot value `val`.  `accent` is the wallpaper accent color
(`hct`, whose hue/chroma are `base_hue`/`base_chroma`), `onSurface` the
scheme role used by the `blend_bg_fg` branch for `term15`. -/
def mtSlot (a : MtArgs) (accent onSurface : Hct) (slot : String) (val : Hct) : Hct :=
  if a.scheme = "monochrome" then val
  else if slot = "term0" then
    if a.blendBgFg then
      boostChromaTone
        { hue := accent.hue, chroma := min (accent.chroma * 0.6) 25, tone := 8 } 1.2 0.95
    else { hue := accent.hue, chroma := min (accent.chroma * 0.6) 25, tone := 6 }
  else if slot = "term8" then
    { hue := accent.hue, chroma := min (accent.chroma * 0.5) 20, tone := 15 }
  else if a.blendBgFg = true ∧ slot = "term15" then
    boostChromaTone onSurface 3 1
  else
    let ct := mtTargetChromaTone slot a.darkmode val.tone
    let targetTone :=
      if slot = "term7" ∨ slot = "term15" then
        ct.2 * (1 + a.termFgBoost * (if a.darkmode then 1 else -1))
      else ct.2
    { hue := mtTargetHue a.harmony accent.hue val.hue, chroma := ct.1, tone := targetTone }

/-- The engine parameters read by the per-slot terminal harmonization loop of
`colorscheming/generate_material_theme.py` (argparse definitions, lines
53-61). -/
structure CsArgs where
  scheme : String
  harmony : ℚ
  harmonizeThreshold : ℚ
  termFgBoost : ℚ
  blendBgFg : Bool
  darkmode : Bool
deriving DecidableEq, Repr

/-- One iteration of the cs per-slot terminal harmonization loop
(`colorscheming/generate_material_theme.py` lines 278-289).  `primaryKey` is
the scheme role `primary_paletteKeyColor`; `surfaceContainerLow` and `onSurface`
are the scheme roles used by the `blend_bg_fg` branches. -/
def csSlot (a : CsArgs) (primaryKey surfaceContainerLow onSurface : Hct)
    (slot : String) (val : Hct) : Hct :=
  if a.scheme = "monochrome" then val
  else if a.blendBgFg = true ∧ slot = "term0" then
    boostChromaTone surfaceContainerLow 1.2 0.95
  else if a.blendBgFg = true ∧ slot = "term15" then
    boostChromaTone onSurface 3 1
  else
    boostChromaTone (harmonize val primaryKey a.harmonizeThreshold a.harmony) 1
      (1 + a.termFgBoost * (if a.darkmode then 1 else -1))

/-- The fixed set of scheme-generation strategy classes provided by the
external materialyoucolor library (one per selector of the dispatch tables in
both engines). -/
inductive SchemeClass
  | fruitSalad
  | expressive
  | monochrome
  | rainbow
  | tonalSpot
  | neutral
  | fidelity
  | content
  | vibrant
deriving DecidableEq, Repr

/-- Scheme class dispatch of the mt engine
(`material-theme/generate_colors_material.py` lines 131-150): an if/elif
chain on the exact selector string, falling back to `SchemeTonalSpot`. -/
def mtSchemeClass (s : String) : SchemeClass :=
  if s = "scheme-fruit-salad" then .fruitSalad
  else if s = "scheme-expressive" then .expressive
  else if s = "scheme-monochrome" then .monochrome
  else if s = "scheme-rainbow" then .rainbow
  else if s = "scheme-tonal-spot" then .tonalSpot
  else if s = "scheme-neutral" then .neutral
  else if s = "scheme-fidelity" then .fidelity
  else if s = "scheme-content" then .content
  else if s = "scheme-vibrant" then .vibrant
  else .tonalSpot

/-- Selector normalization of the cs engine (line 208): the selector gains a
`scheme-` marker in front unless it already carries one (Python
`startswith`, expressed on the character lists so that it evaluates by
kernel reduction). -/
def csSchemeName (s : String) : String :=
  if ("scheme-".data).isPrefixOf s.data then s else "scheme-" ++ s

/-- Dictionary `scheme_map` of the cs engine (lines 196-206), with each
dotted import path abbreviated to the class it names. -/
def csSchemeMap : List (String × SchemeClass) :=
  [("scheme-fruit-salad", .fruitSalad), ("scheme-expressive", .expressive),
   ("scheme-monochrome", .monochrome), ("scheme-rainbow", .rainbow),
   ("scheme-tonal-spot", .tonalSpot), ("scheme-neutral", .neutral),
   ("scheme-fidelity", .fidelity), ("scheme-content", .content),
   ("scheme-vibrant", .vibrant)]

/-- Scheme class dispatch of the cs engine (lines 208-214): normalize the
selector, look it up in `scheme_map`, fall back to `SchemeTonalSpot`. -/
def csSchemeClass (s : String) : SchemeClass :=
  match csSchemeMap.find? (fun p => p.1 == csSchemeName s) with
  | some p => p.2
  | none => .tonalSpot

/-- Modelled from the spec: the dynamic role names contributed by
`MaterialDynamicColors` (external materialyoucolor library, not in `src/`).
The spec fixes a set of named tonal roles (primary/secondary/tertiary
families with on/container variants, surface variants, palette key colors);
this list records the roles the engines and their renderers read. -/
def dynamicRoleNames : List String :=
  ["primary_paletteKeyColor", "secondary_paletteKeyColor", "tertiary_paletteKeyColor",
   "neutral_paletteKeyColor", "neutral_variant_paletteKeyColor",
   "background", "onBackground", "surface", "surfaceDim", "surfaceBright",
   "surfaceContainerLowest", "surfaceContainerLow", "surfaceContainer",
   "surfaceContainerHigh", "surfaceContainerHighest", "onSurface",
   "surfaceVariant", "onSurfaceVariant", "outline", "outlineVariant",
   "primary", "onPrimary", "primaryContainer", "onPrimaryContainer",
   "secondary", "onSecondary", "secondaryContainer", "onSecondaryContainer",
   "tertiary", "onTertiary", "tertiaryContainer", "onTertiaryContainer",
   "error", "onError", "errorContainer", "onErrorContainer",
   "inverseSurface", "inverseOnSurface", "inversePrimary"]

/-- Modelled from the spec: each strategy defines its role colors as pure
functions of the accent and the dark/light flag.  The spec does not state the
numeric per-strategy tables, so a representative per-strategy hue offset is
used; no claim settled here depends on these numbers, only on determinism and
on which class the selector dispatches to. -/
def strategyHueShift : SchemeClass → ℚ
  | .fruitSalad => 48
  | .expressive => 240
  | .monochrome => 0
  | .rainbow => 96
  | .tonalSpot => 12
  | .neutral => 4
  | .fidelity => 1
  | .content => 2
  | .vibrant => 24

/-- Modelled from the spec: the color a strategy assigns to one dynamic role,
deterministic in the class, the accent, the flag and the role name. -/
def roleHct (c : SchemeClass) (accent : Hct) (dark : Bool) (name : String) : Hct :=
  { hue := sanitizeDegrees (accent.hue + strategyHueShift c + name.length),
    chroma := if c = SchemeClass.monochrome then 0 else accent.chroma,
    tone := if dark then 30 + (name.length : ℚ) else 70 - (name.length : ℚ) }

/-- Modelled from the spec: the role extraction loop (mt lines 157-161, cs
lines 223-227) walks every `MaterialDynamicColors` attribute with a `get_hct`
and records one entry per dynamic role. -/
def schemeRoles (c : SchemeClass) (accent : Hct) (dark : Bool) : List (String × Hct) :=
  dynamicRoleNames.map (fun n => (n, roleHct c accent dark n))

/-- A value of the material color mapping: either a scheme-derived color or a
hardcoded hex literal (the extended success roles). -/
inductive MatColor
  | derived (c : Hct)
  | hex (s : String)
deriving DecidableEq, Repr

/-- The extended success roles added by both engines after extraction
(mt lines 164-173, cs lines 230-239): fixed hex values per mode. -/
def successRoles (dark : Bool) : List (String × MatColor) :=
  if dark then
    [("success", MatColor.hex "#B5CCBA"), ("onSuccess", MatColor.hex "#213528"),
     ("successContainer", MatColor.hex "#374B3E"),
     ("onSuccessContainer", MatColor.hex "#D1E9D6")]
  else
    [("success", MatColor.hex "#4F6354"), ("onSuccess", MatColor.hex "#FFFFFF"),
     ("successContainer", MatColor.hex "#D1E8D5"),
     ("onSuccessContainer", MatColor.hex "#0C1F13")]

/-- The full material color mapping of the mt engine for a selector string:
scheme extraction for the dispatched class followed by the success roles. -/
def mtMaterialColors (s : String) (accent : Hct) (dark : Bool) :
    List (String × MatColor) :=
  (schemeRoles (mtSchemeClass s) accent dark).map (fun p => (p.1, MatColor.derived p.2))
    ++ successRoles dark

/-- The full material color mapping of the cs engine for a selector string. -/
def csMaterialColors (s : String) (accent : Hct) (dark : Bool) :
    List (String × MatColor) :=
  (schemeRoles (csSchemeClass s) accent dark).map (fun p => (p.1, MatColor.derived p.2))
    ++ successRoles dark

/-- Every role name required from the scheme output: the dynamic roles plus
the four extended success roles. -/
def requiredRoleNames : List String :=
  dynamicRoleNames ++ ["success", "onSuccess", "successContainer", "onSuccessContainer"]

/-- Role-name membership in a material color mapping. -/
def hasRole (m : List (String × MatColor)) (r : String) : Bool :=
  m.any (fun p => p.1 == r)

/-- The selector strings the mt dispatch chain tests explicitly. -/
def knownMtSelectors : List String :=
  ["scheme-fruit-salad", "scheme-expressive", "scheme-monochrome", "scheme-rainbow",
   "scheme-tonal-spot", "scheme-neutral", "scheme-fidelity", "scheme-content",
   "scheme-vibrant"]

/-- A JSON value as far as the termscheme loader inspects one: a hex string,
or a nested object of hex slots (the dark/light variants). -/
inductive Json
  | str (v : String)
  | obj (kvs : List (String × String))
deriving DecidableEq, Repr

/-- Python `key in dict` on the loaded termscheme object. -/
def hasKeyJ (d : List (String × Json)) (k : String) : Bool :=
  d.any (fun p => p.1 == k)

/-- Python `dict.get(key, default)` on a flat catppuccin-style mapping.  The
flat shape carries hex strings as values; an object value is outside the
shape the conversion supports and reads as the default here. -/
def dictGetJ (d : List (String × Json)) (k dflt : String) : String :=
  match d.find? (fun p => p.1 == k) with
  | some p =>
    match p.2 with
    | Json.str v => v
    | Json.obj _ => dflt
  | none => dflt

/-- Function `convert_catppuccin_to_terminal_colors` from
`material-theme/generate_colors_material.py` lines 81-100 (identical in
`colorscheming/generate_material_theme.py` lines 123-142): remap a flat
named-role mapping to the sixteen `term0`..`term15` slots with fixed
defaults. -/
def convert_catppuccin_to_terminal_colors (c : List (String × Json)) :
    List (String × String) :=
  [("term0", dictGetJ c "base" "#1e1e2e"),
   ("term1", dictGetJ c "red" "#f38ba8"),
   ("term2", dictGetJ c "green" "#a6e3a1"),
   ("term3", dictGetJ c "yellow" "#f9e2af"),
   ("term4", dictGetJ c "blue" "#89b4fa"),
   ("term5", dictGetJ c "pink" "#f5c2e7"),
   ("term6", dictGetJ c "teal" "#94e2d5"),
   ("term7", dictGetJ c "text" "#cdd6f4"),
   ("term8", dictGetJ c "surface2" "#585b70"),
   ("term9", dictGetJ c "red" "#f38ba8"),
   ("term10", dictGetJ c "green" "#a6e3a1"),
   ("term11", dictGetJ c "yellow" "#f9e2af"),
   ("term12", dictGetJ c "blue" "#89b4fa"),
   ("term13", dictGetJ c "pink" "#f5c2e7"),
   ("term14", dictGetJ c "teal" "#94e2d5"),
   ("term15", dictGetJ c "subtext1" "#bac2de")]

/-- Terminal source palette selection (mt lines 182-188, identical shape in
cs lines 271-275): a loaded object with a `dark` or `light` key provides the
variant for the current mode (`none` models the KeyError / type error when
that exact variant is missing or not an object); any other object is treated
as a flat catppuccin-style mapping and remapped. -/
def termSourceColors (loaded : List (String × Json)) (darkmode : Bool) :
    Option (List (String × String)) :=
  if hasKeyJ loaded "dark" || hasKeyJ loaded "light" then
    match loaded.find? (fun p => p.1 == (if darkmode then "dark" else "light")) with
    | some p =>
      match p.2 with
      | Json.obj o => some o
      | Json.str _ => none
    | none => none
  else
    some (convert_catppuccin_to_terminal_colors loaded)

/-- The sixteen canonical slot names in order. -/
def termSlotNames : List String :=
  ["term0", "term1", "term2", "term3", "term4", "term5", "term6", "term7",
   "term8", "term9", "term10", "term11", "term12", "term13", "term14", "term15"]

/-- Lookup with default on a string-valued association list (Python
`dict.get` / subscription on the converted palette). -/
def dictGetS (d : List (String × String)) (k dflt : String) : String :=
  match d.find? (fun p => p.1 == k) with
  | some p => p.2
  | none => dflt

/-- The slot / source-role / built-in-default table implemented by
`convert_catppuccin_to_terminal_colors`, as stated by the spec scenario. -/
def catppuccinSlotTable : List (String × String × String) :=
  [("term0", "base", "#1e1e2e"), ("term1", "red", "#f38ba8"),
   ("term2", "green", "#a6e3a1"), ("term3", "yellow", "#f9e2af"),
   ("term4", "blue", "#89b4fa"), ("term5", "pink", "#f5c2e7"),
   ("term6", "teal", "#94e2d5"), ("term7", "text", "#cdd6f4"),
   ("term8", "surface2", "#585b70"), ("term9", "red", "#f38ba8"),
   ("term10", "green", "#a6e3a1"), ("term11", "yellow", "#f9e2af"),
   ("term12", "blue", "#89b4fa"), ("term13", "pink", "#f5c2e7"),
   ("term14", "teal", "#94e2d5"), ("term15", "subtext1", "#bac2de")]

/-- Integer square root by downward search (largest `j ≤ k` with
`j * j ≤ n`), written by structural recursion so that it evaluates by kernel
reduction. -/
def natSqrtAux : ℕ → ℕ → ℕ
  | 0, _ => 0
  | k + 1, n => if (k + 1) * (k + 1) ≤ n then k + 1 else natSqrtAux k n

/-- Integer square root: the largest `j` with `j * j ≤ n`. -/
def natSqrt (n : ℕ) : ℕ :=
  natSqrtAux n n

/-- Python `round` (round half to even) of the nonnegative
rational `n / m`. -/
def pyRoundHalfEvenDiv (n m : ℕ) : ℕ :=
  if 2 * (n % m) < m then n / m
  else if 2 * (n % m) > m then n / m + 1
  else if (n / m) % 2 = 0 then n / m else n / m + 1

/-- Python `round(sqrt N / d)` with exact real arithmetic: when `4 * N` is a
perfect square, `sqrt N / d` is the rational `sqrt(4N) / (2d)` and round-half-to-even
applies; otherwise no tie is possible and rounding to nearest is
`floor((sqrt N / d) + 1/2) = floor((sqrt(4N) + d) / (2d))`, with
`floor(sqrt(4N))` computed by `natSqrt`. -/
def roundDivSqrt (N d : ℕ) : ℕ :=
  if natSqrt (4 * N) * natSqrt (4 * N) = 4 * N then
    pyRoundHalfEvenDiv (natSqrt (4 * N)) (2 * d)
  else (natSqrt (4 * N) + d) / (2 * d)

/-- Function `calculate_optimal_size` (`material-theme/generate_colors_material.py`
lines 55-65 and `colorscheming/generate_material_theme.py` lines 95-102,
identical semantics: the mt variant floors a rounded 0 up to 1, the cs
variant takes `max(1, round(...))`).  When the image area exceeds the bitmap
area, each dimension is `round(dim * sqrt(bitmap_area / image_area))`:
`width * scale = sqrt(width^2 * size^2 * area) / area`, modelled exactly by
`roundDivSqrt`; otherwise `scale = 1` and rounding returns the dimensions
unchanged. -/
def calculate_optimal_size (width height bitmapSize : ℕ) : ℕ × ℕ :=
  if width * height > bitmapSize * bitmapSize then
    (max 1 (roundDivSqrt (width * width * bitmapSize * bitmapSize * (width * height))
        (width * height)),
     max 1 (roundDivSqrt (height * height * bitmapSize * bitmapSize * (width * height))
        (width * height)))
  else (width, height)

/-- Files the cs engine writes, in program order, as far as the engine core
is concerned (renderer outputs are flag-gated and follow these). -/
inductive CsWrite
  | cacheArg
  | defaultCache
  | termSchemeDefault
  | colorsJson
deriving DecidableEq, Repr

/-- How a run terminates when it does not complete: an explicit input error
(message printed, exit code 1), or an uncaught Python exception. -/
inductive RunErr
  | inputError (msg : String)
  | nameError (name : String)
deriving DecidableEq, Repr

/-- Source selection and the write trace of the cs engine core
(`colorscheming/generate_material_theme.py` lines 150-193 and 291-301):
with an image path the optional `--cache` file and the default cache are
written before scheme generation; with only a literal color the default
cache is written; with neither, the run aborts with an explicit input error
before any file is written.  Every completing run then writes `colors.json`
(and the default termscheme file first when it has to be created). -/
def csRun (path color cacheArg : Option Unit) (needTermDefault : Bool) :
    List CsWrite × Except RunErr Unit :=
  match path, color with
  | some _, _ =>
    ((match cacheArg with
      | some _ => [CsWrite.cacheArg]
      | none => []) ++ [CsWrite.defaultCache]
      ++ (if needTermDefault then [CsWrite.termSchemeDefault] else [])
      ++ [CsWrite.colorsJson], Except.ok ())
  | none, some _ =>
    ([CsWrite.defaultCache]
      ++ (if needTermDefault then [CsWrite.termSchemeDefault] else [])
      ++ [CsWrite.colorsJson], Except.ok ())
  | none, none =>
    ([], Except.error (RunErr.inputError "Error: Must provide either --path or --color"))

/-- Files the mt engine core writes (only the optional `--cache` file; its
renderer outputs are flag-gated and follow). -/
inductive MtWrite
  | cacheArg
deriving DecidableEq, Repr

/-- Source selection and the write trace of the mt engine core
(`material-theme/generate_colors_material.py` lines 105-129 and 152): the
if/elif has no else branch, so with neither input the names `argb`/`hct` are
never bound and the run dies with a `NameError` at `scheme = Scheme(hct, ...)`
(line 152) — after the scheme class dispatch, before any file is written. -/
def mtRun (path color cacheArg : Option Unit) :
    List MtWrite × Except RunErr Unit :=
  match path, color with
  | some _, _ =>
    ((match cacheArg with
      | some _ => [MtWrite.cacheArg]
      | none => []), Except.ok ())
  | none, some _ => ([], Except.ok ())
  | none, none => ([], Except.error (RunErr.nameError "hct"))

/-- Outcome of one `subprocess.run(["git", "config", ...], check=True)` call:
success, a nonzero exit (`CalledProcessError`), a missing binary
(`FileNotFoundError`), or any other exception class. -/
inductive GitOutcome
  | success
  | calledProcessError
  | fileNotFoundError
  | otherError
deriving DecidableEq, Repr

/-- Exceptions `configure_git_diff_colors` can raise to its caller. -/
inductive GitErr
  | keyError (k : String)
  | uncaught
deriving DecidableEq, Repr

/-- Python dict subscription: `d[k]`, raising `KeyError` when absent. -/
def dictLookup (d : List (String × String)) (k : String) : Except GitErr String :=
  match d.find? (fun p => p.1 == k) with
  | some p => Except.ok p.2
  | none => Except.error (GitErr.keyError k)

/-- The ordered `git config --global` invocations of
`configure_git_diff_colors` (lines 216-229): the five diff colors, the two
diff-highlight colors, the three status colors. -/
def gitCmds (old new meta frag commit : String) : List (String × String) :=
  [("color.diff.old", old), ("color.diff.new", new), ("color.diff.meta", meta),
   ("color.diff.frag", frag), ("color.diff.commit", commit),
   ("color.diff-highlight.oldNormal", old), ("color.diff-highlight.newNormal", new),
   ("color.status.added", new), ("color.status.deleted", old),
   ("color.status.changed", meta)]

/-- Run the `git config` command list in order against the environment `env`;
the first raised exception aborts the remaining calls. -/
def runGitCmds (env : String × String → GitOutcome) :
    List (String × String) → GitOutcome
  | [] => GitOutcome.success
  | c :: rest =>
    match env c with
    | GitOutcome.success => runGitCmds env rest
    | e => e

/-- Function `configure_git_diff_colors` from `colorscheming/generate_lazygit_theme.py`
lines 196-241: the `git_diff_colors` dict is built by plain subscription
(outside any try block, so a missing key raises `KeyError` to the caller);
the subprocess loop is wrapped in `try` with handlers for exactly
`subprocess.CalledProcessError` and `FileNotFoundError`, which log (in debug
mode) and return normally; any other exception class propagates. -/
def configure_git_diff_colors (env : String × String → GitOutcome)
    (lazygitColors termColors : List (String × String)) : Except GitErr Unit :=
  match dictLookup lazygitColors "unstagedChanges" with
  | Except.error e => Except.error e
  | Except.ok old =>
    match dictLookup lazygitColors "stagedChanges" with
    | Except.error e => Except.error e
    | Except.ok new =>
      match dictLookup termColors "term4" with
      | Except.error e => Except.error e
      | Except.ok meta =>
        match dictLookup termColors "term4" with
        | Except.error e => Except.error e
        | Except.ok frag =>
          match dictLookup termColors "term5" with
          | Except.error e => Except.error e
          | Except.ok commit =>
            match runGitCmds env (gitCmds old new meta frag commit) with
            | GitOutcome.success => Except.ok ()
            | GitOutcome.calledProcessError => Except.ok ()
            | GitOutcome.fileNotFoundError => Except.ok ()
            | GitOutcome.otherError => Except.error GitErr.uncaught

/-- True when the call raised to its caller. -/
def raisesToCaller (r : Except GitErr Unit) : Bool :=
  match r with
  | Except.ok _ => false
  | Except.error _ => true

theorem sanitizeDegrees_eq_fract (x : ℚ) :
    sanitizeDegrees x = 360 * Int.fract (x / 360) := by
  unfold sanitizeDegrees Int.fract
  ring

theorem sanitizeDegrees_nonneg (x : ℚ) : 0 ≤ sanitizeDegrees x := by
  rw [sanitizeDegrees_eq_fract]
  have := Int.fract_nonneg (x / 360)
  linarith

theorem sanitizeDegrees_lt (x : ℚ) : sanitizeDegrees x < 360 := by
  rw [sanitizeDegrees_eq_fract]
  have := Int.fract_lt_one (x / 360)
  linarith

theorem sanitizeDegrees_add_int_mul (x : ℚ) (k : ℤ) :
    sanitizeDegrees (x + 360 * k) = sanitizeDegrees x := by
  rw [sanitizeDegrees_eq_fract, sanitizeDegrees_eq_fract]
  have : (x + 360 * k) / 360 = x / 360 + k := by
    field_simp
    ring
  rw [this, Int.fract_add_int]

theorem sanitizeDegrees_eq_self {x : ℚ} (h0 : 0 ≤ x) (h1 : x < 360) :
    sanitizeDegrees x = x := by
  unfold sanitizeDegrees
  have hfl : ⌊x / 360⌋ = 0 := by
    rw [Int.floor_eq_zero_iff]
    constructor
    · positivity
    · rw [div_lt_one (by norm_num)]
      simpa using h1
  rw [hfl]
  push_cast
  ring

theorem sanitizeDegrees_360 : sanitizeDegrees 360 = 0 := by
  unfold sanitizeDegrees
  rw [show (360 : ℚ) / 360 = 1 by norm_num, Int.floor_one]
  norm_num

theorem sanitizeDegrees_of_neg {x : ℚ} (h0 : -360 ≤ x) (h1 : x < 0) :
    sanitizeDegrees x = x + 360 := by
  have hper : sanitizeDegrees (x + 360 * ((1 : ℤ) : ℚ)) = sanitizeDegrees x :=
    sanitizeDegrees_add_int_mul x 1
  have hx : x + 360 * ((1 : ℤ) : ℚ) = x + 360 := by norm_num
  rw [hx] at hper
  rw [← hper]
  exact sanitizeDegrees_eq_self (by linarith) (by linarith)

theorem sanitizeDegrees_sub_sanitize (x y : ℚ) :
    sanitizeDegrees (x - sanitizeDegrees y) = sanitizeDegrees (x - y) := by
  unfold sanitizeDegrees
  have h : x - (y - 360 * (⌊y / 360⌋ : ℚ)) = (x - y) + 360 * (⌊y / 360⌋ : ℤ) := by
    ring
  calc x - (y - 360 * (⌊y / 360⌋ : ℚ)) - 360 * (⌊(x - (y - 360 * (⌊y / 360⌋ : ℚ))) / 360⌋ : ℚ)
      = sanitizeDegrees (x - (y - 360 * (⌊y / 360⌋ : ℚ))) := rfl
    _ = sanitizeDegrees ((x - y) + 360 * (⌊y / 360⌋ : ℤ)) := by rw [← h]
    _ = sanitizeDegrees (x - y) := sanitizeDegrees_add_int_mul _ _
    _ = x - y - 360 * (⌊(x - y) / 360⌋ : ℚ) := rfl

theorem sanitizeDegrees_congr (x y : ℚ) (k : ℤ) (h : x = y + 360 * k) :
    sanitizeDegrees x = sanitizeDegrees y := by
  rw [h, sanitizeDegrees_add_int_mul]

/-- The shorter-arc distance formula agrees with the `min` of the increasing
rotation and its complement, for hue arguments at most 360 degrees apart. -/
theorem differenceDegrees_eq_min {a b : ℚ} (h : |a - b| ≤ 360) :
    differenceDegrees a b =
      min (sanitizeDegrees (b - a)) (360 - sanitizeDegrees (b - a)) := by
  unfold differenceDegrees
  set u := b - a with hu
  have hab : a - b = -u := by rw [hu]; ring
  rw [hab, abs_neg]
  rw [hab, abs_neg] at h
  rcases le_or_lt 0 u with h0 | h0
  · -- u ∈ [0, 360]
    rw [abs_of_nonneg h0] at h ⊢
    rcases eq_or_lt_of_le h with h360 | h360
    · -- u = 360
      rw [h360, sanitizeDegrees_360]
      norm_num
    · rw [sanitizeDegrees_eq_self h0 h360]
      rcases le_or_lt u 180 with h180 | h180
      · rw [abs_of_nonpos (by linarith), min_eq_left (by linarith)]
        ring
      · rw [abs_of_nonneg (by linarith), min_eq_right (by linarith)]
        ring
  · -- u ∈ [-360, 0)
    rw [abs_of_neg h0] at h ⊢
    rw [sanitizeDegrees_of_neg (by linarith) h0]
    rcases le_or_lt (-180) u with h180 | h180
    · rw [abs_of_nonpos (by linarith), min_eq_right (by linarith)]
      ring
    · rw [abs_of_nonneg (by linarith), min_eq_left (by linarith)]
      ring

/-- Core analysis of `harmonize`: with hues in `[0, 360)`, harmony in `[0, 1]`
and a nonnegative threshold, the rotated hue ends exactly
`rotation` degrees closer to the source hue (where
`rotation = min(difference * harmony, threshold)`), and sits exactly
`rotation` degrees from the original design hue. -/
theorem harmonize_hue_spec (dc sc : Hct) (threshold harmony : ℚ)
    (hd0 : 0 ≤ dc.hue) (hd1 : dc.hue < 360)
    (hs0 : 0 ≤ sc.hue) (hs1 : sc.hue < 360)
    (hh0 : 0 ≤ harmony) (hh1 : harmony ≤ 1)
    (ht0 : 0 ≤ threshold) :
    differenceDegrees (harmonize dc sc threshold harmony).hue sc.hue
        = differenceDegrees dc.hue sc.hue
          - min (differenceDegrees dc.hue sc.hue * harmony) threshold
    ∧ differenceDegrees (harmonize dc sc threshold harmony).hue dc.hue
        = min (differenceDegrees dc.hue sc.hue * harmony) threshold := by
  have hu_abs : |dc.hue - sc.hue| ≤ 360 := by
    rw [abs_le]; constructor <;> linarith
  set dd := sanitizeDegrees (sc.hue - dc.hue) with hdd_set
  have hdd_def : dd = (sc.hue - dc.hue) - 360 * ((⌊(sc.hue - dc.hue) / 360⌋ : ℤ) : ℚ) := rfl
  have hdd0 : 0 ≤ dd := sanitizeDegrees_nonneg _
  have hdd360 : dd < 360 := sanitizeDegrees_lt _
  set diff := differenceDegrees dc.hue sc.hue with hdiff_set
  have hdiffmin : diff = min dd (360 - dd) := differenceDegrees_eq_min hu_abs
  have hdiff0 : 0 ≤ diff := by
    rw [hdiffmin]; exact le_min (by linarith) (by linarith)
  have hdiff180 : diff ≤ 180 := by
    rcases le_total dd 180 with h | h
    · exact (hdiffmin ▸ min_le_left _ _).trans h
    · exact (hdiffmin ▸ min_le_right _ _).trans (by linarith)
  set rot := min (diff * harmony) threshold with hrot_set
  have hrot0 : 0 ≤ rot := le_min (mul_nonneg hdiff0 hh0) ht0
  have hrotdiff : rot ≤ diff :=
    (min_le_left _ _).trans (mul_le_of_le_one_right hdiff0 hh1)
  have hrot180 : rot ≤ 180 := hrotdiff.trans hdiff180
  have hhue : (harmonize dc sc threshold harmony).hue
      = sanitizeDegrees (dc.hue + rot * rotationDirection dc.hue sc.hue) := rfl
  by_cases hdir : dd ≤ 180
  · -- rotate clockwise (increasing hue)
    have hdirval : rotationDirection dc.hue sc.hue = 1 := by
      unfold rotationDirection
      exact if_pos hdir
    have hhue1 : (harmonize dc sc threshold harmony).hue
        = sanitizeDegrees (dc.hue + rot) := by
      rw [hhue, hdirval, mul_one]
    have hdiffdd : diff = dd := by
      rw [hdiffmin]; exact min_eq_left (by linarith)
    have hn0 : 0 ≤ sanitizeDegrees (dc.hue + rot) := sanitizeDegrees_nonneg _
    have hn1 : sanitizeDegrees (dc.hue + rot) < 360 := sanitizeDegrees_lt _
    constructor
    · rw [hhue1, differenceDegrees_eq_min (by rw [abs_le]; constructor <;> linarith)]
      have hshift : sc.hue - (dc.hue + rot)
          = (dd - rot) + 360 * ((⌊(sc.hue - dc.hue) / 360⌋ : ℤ) : ℚ) := by
        rw [hdd_def]; ring
      rw [sanitizeDegrees_sub_sanitize, sanitizeDegrees_congr _ _ _ hshift,
        sanitizeDegrees_eq_self (by linarith [hdiffdd ▸ hrotdiff]) (by linarith)]
      rw [min_eq_left (by linarith), hdiffdd]
    · rw [hhue1, differenceDegrees_eq_min (by rw [abs_le]; constructor <;> linarith)]
      have harg : dc.hue - (dc.hue + rot) = -rot := by ring
      rw [sanitizeDegrees_sub_sanitize, harg]
      rcases eq_or_lt_of_le hrot0 with hr0 | hr0
      · rw [← hr0]
        rw [show (-(0:ℚ)) = 0 by ring, sanitizeDegrees_eq_self le_rfl (by norm_num)]
        norm_num
      · rw [sanitizeDegrees_of_neg (by linarith) (by linarith)]
        rw [min_eq_right (by linarith)]
        ring
  · -- rotate counterclockwise (decreasing hue)
    push_neg at hdir
    have hdirval : rotationDirection dc.hue sc.hue = -1 := by
      unfold rotationDirection
      exact if_neg (by exact not_le_of_lt hdir)
    have hhue1 : (harmonize dc sc threshold harmony).hue
        = sanitizeDegrees (dc.hue - rot) := by
      rw [hhue, hdirval]
      congr 1
      ring
    have hdiffdd : diff = 360 - dd := by
      rw [hdiffmin]; exact min_eq_right (by linarith)
    have hddrot : dd + rot ≤ 360 := by
      have := hdiffdd ▸ hrotdiff
      linarith
    have hn0 : 0 ≤ sanitizeDegrees (dc.hue - rot) := sanitizeDegrees_nonneg _
    have hn1 : sanitizeDegrees (dc.hue - rot) < 360 := sanitizeDegrees_lt _
    constructor
    · rw [hhue1, differenceDegrees_eq_min (by rw [abs_le]; constructor <;> linarith)]
      have hshift : sc.hue - (dc.hue - rot)
          = (dd + rot) + 360 * ((⌊(sc.hue - dc.hue) / 360⌋ : ℤ) : ℚ) := by
        rw [hdd_def]; ring
      rw [sanitizeDegrees_sub_sanitize, sanitizeDegrees_congr _ _ _ hshift]
      rcases eq_or_lt_of_le hddrot with h360 | h360
      · rw [h360, sanitizeDegrees_360]
        rw [min_eq_left (by norm_num)]
        linarith [hdiffdd]
      · rw [sanitizeDegrees_eq_self (by linarith) h360]
        rw [min_eq_right (by linarith), hdiffdd]
        ring
    · rw [hhue1, differenceDegrees_eq_min (by rw [abs_le]; constructor <;> linarith)]
      have harg : dc.hue - (dc.hue - rot) = rot := by ring
      rw [sanitizeDegrees_sub_sanitize, harg,
        sanitizeDegrees_eq_self hrot0 (by linarith)]
      exact min_eq_left (by linarith)

theorem natSqrtAux_sq_le (k n : ℕ) : natSqrtAux k n * natSqrtAux k n ≤ n := by
  induction k with
  | zero => simp [natSqrtAux]
  | succ k ih =>
    unfold natSqrtAux
    split
    · assumption
    · exact ih

theorem natSqrt_sq_le (n : ℕ) : natSqrt n * natSqrt n ≤ n :=
  natSqrtAux_sq_le n n

theorem natSqrtAux_maximal (k n j : ℕ) (hj : j ≤ k) (hsq : j * j ≤ n) :
    j ≤ natSqrtAux k n := by
  induction k with
  | zero => simpa [natSqrtAux] using hj
  | succ k ih =>
    unfold natSqrtAux
    split
    · exact hj
    · rename_i hcond
      rcases Nat.lt_or_ge j (k + 1) with hlt | hge
      · exact ih (by omega)
      · have hj1 : j = k + 1 := by omega
        rw [hj1] at hsq
        exact absurd hsq hcond

theorem natSqrt_lt_succ_sq (n : ℕ) : n < (natSqrt n + 1) * (natSqrt n + 1) := by
  by_contra hc
  push_neg at hc
  have h1 : natSqrt n + 1 ≤ n := by
    have h2 : natSqrt n + 1 ≤ (natSqrt n + 1) * (natSqrt n + 1) :=
      Nat.le_mul_of_pos_left _ (by omega)
    omega
  have h3 := natSqrtAux_maximal n n (natSqrt n + 1) h1 hc
  have h4 : natSqrtAux n n = natSqrt n := rfl
  omega

theorem pyRoundHalfEvenDiv_le (n m k : ℕ) (hm : 0 < m)
    (h : 2 * n < (2 * k + 1) * m) : pyRoundHalfEvenDiv n m ≤ k := by
  have hdm : m * (n / m) + n % m = n := Nat.div_add_mod n m
  have hq_le : n / m * m ≤ n := Nat.div_mul_le_self n m
  have hq_k : n / m ≤ k := by
    by_contra hc
    push_neg at hc
    have h1 : (k + 1) * m ≤ n / m * m := Nat.mul_le_mul_right m hc
    have h2 : (2 * k + 1) * m < 2 * (n / m * m) := by
      calc (2 * k + 1) * m < (2 * k + 2) * m := by
            exact (Nat.mul_lt_mul_right hm).mpr (by omega)
        _ = 2 * ((k + 1) * m) := by ring
        _ ≤ 2 * (n / m * m) := Nat.mul_le_mul_left 2 h1
    have h3 : 2 * (n / m * m) ≤ 2 * n := Nat.mul_le_mul_left 2 hq_le
    omega
  have hn2 : 2 * n = 2 * (n / m * m) + 2 * (n % m) := by
    calc 2 * n = 2 * (m * (n / m) + n % m) := by rw [hdm]
      _ = 2 * (n / m * m) + 2 * (n % m) := by ring
  unfold pyRoundHalfEvenDiv
  split
  · exact hq_k
  · have hq_lt : n / m < k := by
      have hstep : (2 * (n / m) + 1) * m < (2 * k + 1) * m := by
        calc (2 * (n / m) + 1) * m = 2 * (n / m * m) + m := by ring
          _ ≤ 2 * (n / m * m) + 2 * (n % m) := by omega
          _ = 2 * n := hn2.symm
          _ < (2 * k + 1) * m := h
      have := lt_of_mul_lt_mul_right hstep (Nat.zero_le m)
      omega
    split
    · omega
    · split <;> omega

theorem pyRoundHalfEvenDiv_ge (n m k : ℕ) (h : pyRoundHalfEvenDiv n m = k) :
    2 * k * m ≤ 2 * n + m := by
  have hdm : m * (n / m) + n % m = n := Nat.div_add_mod n m
  have hq_le : n / m * m ≤ n := Nat.div_mul_le_self n m
  have hbase : 2 * (n / m) * m ≤ 2 * n + m := by
    calc 2 * (n / m) * m = 2 * (n / m * m) := by ring
      _ ≤ 2 * n := Nat.mul_le_mul_left 2 hq_le
      _ ≤ 2 * n + m := Nat.le_add_right _ _
  have hn2 : 2 * n = 2 * (n / m * m) + 2 * (n % m) := by
    calc 2 * n = 2 * (m * (n / m) + n % m) := by rw [hdm]
      _ = 2 * (n / m * m) + 2 * (n % m) := by ring
  have hsucc : m ≤ 2 * (n % m) → 2 * (n / m + 1) * m ≤ 2 * n + m := by
    intro hr
    calc 2 * (n / m + 1) * m = 2 * (n / m * m) + m + m := by ring
      _ ≤ 2 * (n / m * m) + 2 * (n % m) + m := by omega
      _ = 2 * n + m := by omega
  unfold pyRoundHalfEvenDiv at h
  split at h
  · rw [← h]; exact hbase
  · rename_i h1
    split at h
    · rename_i h2
      rw [← h]; exact hsucc (by omega)
    · split at h <;> rw [← h]
      · exact hbase
      · exact hsucc (by omega)

theorem roundDivSqrt_le (N d k : ℕ) (hd : 0 < d)
    (h : 4 * N < ((2 * k + 1) * d) * ((2 * k + 1) * d)) : roundDivSqrt N d ≤ k := by
  have ht2 : natSqrt (4 * N) * natSqrt (4 * N) ≤ 4 * N := natSqrt_sq_le _
  have ht : natSqrt (4 * N) < (2 * k + 1) * d := by
    by_contra hc
    push_neg at hc
    have := Nat.mul_le_mul hc hc
    omega
  unfold roundDivSqrt
  split
  · apply pyRoundHalfEvenDiv_le _ _ _ (by omega)
    calc 2 * natSqrt (4 * N) < 2 * ((2 * k + 1) * d) := by omega
      _ = (2 * k + 1) * (2 * d) := by ring
  · have h2 : natSqrt (4 * N) + d < (k + 1) * (2 * d) := by
      calc natSqrt (4 * N) + d < (2 * k + 1) * d + d := by omega
        _ = (k + 1) * (2 * d) := by ring
    have h3 := (Nat.div_lt_iff_lt_mul (show 0 < 2 * d by omega)).mpr h2
    omega

theorem roundDivSqrt_lower (N d k : ℕ) (h : roundDivSqrt N d = k) :
    2 * k * d ≤ natSqrt (4 * N) + d := by
  unfold roundDivSqrt at h
  split at h
  · have hge := pyRoundHalfEvenDiv_ge (natSqrt (4 * N)) (2 * d) k h
    ring_nf at hge ⊢
    linarith
  · have hdiv : (natSqrt (4 * N) + d) / (2 * d) * (2 * d) ≤ natSqrt (4 * N) + d :=
      Nat.div_mul_le_self _ _
    rw [h] at hdiv
    ring_nf at hdiv ⊢
    linarith

theorem roundDivSqrt_sq_bound (N d k : ℕ) (hk : 1 ≤ k) (h : roundDivSqrt N d = k) :
    ((2 * k - 1) * d) * ((2 * k - 1) * d) ≤ 4 * N := by
  have h1 := roundDivSqrt_lower N d k h
  have h2 : (2 * k - 1) * d ≤ natSqrt (4 * N) := by
    have hplus : (2 * k - 1) * d + d = 2 * k * d := by
      have hsum : (2 * k - 1) + 1 = 2 * k := by omega
      calc (2 * k - 1) * d + d = ((2 * k - 1) + 1) * d := by ring
        _ = 2 * k * d := by rw [hsum]
    omega
  calc ((2 * k - 1) * d) * ((2 * k - 1) * d)
      ≤ natSqrt (4 * N) * natSqrt (4 * N) := Nat.mul_le_mul h2 h2
    _ ≤ 4 * N := natSqrt_sq_le _

theorem hasRole_scheme_append (c : SchemeClass) (accent : Hct) (dark : Bool)
    (r : String) (hr : r ∈ requiredRoleNames) :
    hasRole ((schemeRoles c accent dark).map (fun p => (p.1, MatColor.derived p.2))
      ++ successRoles dark) r = true := by
  unfold hasRole
  rw [List.any_append, Bool.or_eq_true]
  rcases List.mem_append.mp hr with hdyn | hsucc
  · left
    rw [List.any_eq_true]
    refine ⟨(r, MatColor.derived (roleHct c accent dark r)), ?_, by simp⟩
    apply List.mem_map.mpr
    refine ⟨(r, roleHct c accent dark r), ?_, rfl⟩
    unfold schemeRoles
    exact List.mem_map.mpr ⟨r, hdyn, rfl⟩
  · right
    unfold successRoles
    fin_cases hsucc <;> cases dark <;> decide

theorem mtSchemeClass_of_unknown (s : String) (h : s ∉ knownMtSelectors) :
    mtSchemeClass s = SchemeClass.tonalSpot := by
  unfold knownMtSelectors at h
  simp only [List.mem_cons, List.not_mem_nil, or_false, not_or] at h
  obtain ⟨h1, h2, h3, h4, h5, h6, h7, h8, h9⟩ := h
  unfold mtSchemeClass
  rw [if_neg h1, if_neg h2, if_neg h3, if_neg h4, if_neg h5, if_neg h6, if_neg h7,
    if_neg h8, if_neg h9]

theorem csSchemeClass_of_unknown (s : String) (h : csSchemeName s ∉ knownMtSelectors) :
    csSchemeClass s = SchemeClass.tonalSpot := by
  unfold csSchemeClass
  have hmap : csSchemeMap.find? (fun p => p.1 == csSchemeName s) = none := by
    rw [List.find?_eq_none]
    intro p hp hbeq
    have hpeq : p.1 = csSchemeName s := by
      exact eq_of_beq hbeq
    apply h
    rw [← hpeq]
    fin_cases hp <;> decide
  rw [hmap]

theorem runGitCmds_ne_other (env : String × String → GitOutcome)
    (henv : ∀ c, env c ≠ GitOutcome.otherError) (l : List (String × String)) :
    runGitCmds env l ≠ GitOutcome.otherError := by
  induction l with
  | nil =>
    unfold runGitCmds
    simp
  | cons c rest ih =>
    unfold runGitCmds
    cases hc : env c
    · exact ih
    · simp
    · simp
    · exact absurd hc (henv c)

/-- Claim C1 (amended): harmonization boundedness holds for the `harmonize`
function (the harmonizer of the colorscheming engine): for source and accent
hues in `[0, 360)`, `h` in `[0, 1]` and `theta` in `[0, 180]`, the angular
distance between the harmonized hue and the accent hue never exceeds the
original distance — it equals the original distance minus the rotation
`min(|difference| * h, theta)` exactly, so the rotation moves toward the
accent and never overshoots — and the rotation applied (the angular distance
between the harmonized hue and the source hue) equals that amount and never
exceeds `theta`; chroma and tone pass through unchanged.  The per-slot loop
of the material-theme engine does not satisfy the original claim (see the
counterexample): it ignores the threshold and works on the raw, unwrapped hue
difference with a separate 60-degree clamp. -/
theorem harmonize_boundedness (dc sc : Hct) (threshold harmony : ℚ)
    (hd0 : 0 ≤ dc.hue) (hd1 : dc.hue < 360)
    (hs0 : 0 ≤ sc.hue) (hs1 : sc.hue < 360)
    (hh0 : 0 ≤ harmony) (hh1 : harmony ≤ 1)
    (ht0 : 0 ≤ threshold) (ht1 : threshold ≤ 180) :
    differenceDegrees (harmonize dc sc threshold harmony).hue sc.hue
        ≤ differenceDegrees dc.hue sc.hue
    ∧ differenceDegrees (harmonize dc sc threshold harmony).hue sc.hue
        = differenceDegrees dc.hue sc.hue
          - min (differenceDegrees dc.hue sc.hue * harmony) threshold
    ∧ differenceDegrees (harmonize dc sc threshold harmony).hue dc.hue
        = min (differenceDegrees dc.hue sc.hue * harmony) threshold
    ∧ differenceDegrees (harmonize dc sc threshold harmony).hue dc.hue ≤ threshold
    ∧ (harmonize dc sc threshold harmony).chroma = dc.chroma
    ∧ (harmonize dc sc threshold harmony).tone = dc.tone := by
  obtain ⟨hA, hB⟩ :=
    harmonize_hue_spec dc sc threshold harmony hd0 hd1 hs0 hs1 hh0 hh1 ht0
  have habs : |dc.hue - sc.hue| ≤ 360 := by
    rw [abs_le]; constructor <;> linarith
  have hdmin := differenceDegrees_eq_min habs
  have hdiff0 : 0 ≤ differenceDegrees dc.hue sc.hue := by
    rw [hdmin]
    exact le_min (sanitizeDegrees_nonneg _)
      (by linarith [sanitizeDegrees_lt (sc.hue - dc.hue)])
  have hrot0 : 0 ≤ min (differenceDegrees dc.hue sc.hue * harmony) threshold :=
    le_min (mul_nonneg hdiff0 hh0) ht0
  exact ⟨by rw [hA]; linarith, hA, hB, by rw [hB]; exact min_le_right _ _, rfl, rfl⟩

/-- Witness for the C1 theorem at a concrete input: design hue 30, accent hue
90, harmony 1/2, threshold 100. -/
theorem harmonize_boundedness_witness :
    (0 : ℚ) ≤ 1 / 2 ∧
    differenceDegrees
        (harmonize { hue := 30, chroma := 50, tone := 50 }
          { hue := 90, chroma := 40, tone := 40 } 100 (1 / 2)).hue
        ({ hue := 90, chroma := 40, tone := 40 } : Hct).hue
      ≤ differenceDegrees ({ hue := 30, chroma := 50, tone := 50 } : Hct).hue
          ({ hue := 90, chroma := 40, tone := 40 } : Hct).hue :=
  ⟨by norm_num,
    (harmonize_boundedness
      { hue := 30, chroma := 50, tone := 50 } { hue := 90, chroma := 40, tone := 40 }
      100 (1 / 2) (by norm_num) (by norm_num) (by norm_num) (by norm_num)
      (by norm_num) (by norm_num) (by norm_num) (by norm_num)).1⟩

/-- Counterexample to claim C1 as stated: in the material-theme per-slot loop
(with harmony 1/2 in `[0,1]` and the default threshold 100 in `[0,180]`), a
red slot at hue 350 against an accent at hue 10 is sent to hue 70: its
angular distance to the accent grows from 20 to 60 degrees, so the harmonized
distance exceeds the source distance (and the 80-degree rotation is not of
the form `min(|difference| * h, theta)` toward the accent). -/
theorem mt_slot_hue_distance_counterexample :
    differenceDegrees 350 10 <
      differenceDegrees
        (mtSlot { scheme := "scheme-vibrant", harmony := 1 / 2, harmonizeThreshold := 100,
                  termFgBoost := 7 / 20, blendBgFg := false, darkmode := true }
          { hue := 10, chroma := 50, tone := 50 } { hue := 10, chroma := 8, tone := 90 }
          "term1" { hue := 350, chroma := 40, tone := 50 }).hue 10 := by
  have hslot :
      (mtSlot { scheme := "scheme-vibrant", harmony := 1 / 2, harmonizeThreshold := 100,
                termFgBoost := 7 / 20, blendBgFg := false, darkmode := true }
        { hue := 10, chroma := 50, tone := 50 } { hue := 10, chroma := 8, tone := 90 }
        "term1" { hue := 350, chroma := 40, tone := 50 }).hue = 70 := by
    norm_num [mtSlot, mtTargetHue, mtTargetChromaTone, effectiveHarmony,
      sanitizeDegrees, abs]
    rw [if_neg (show ¬ ("scheme-vibrant" = "monochrome") by decide),
      if_neg (show ¬ ("term1" = "term0") by decide),
      if_neg (show ¬ ("term1" = "term8") by decide)]
  rw [hslot]
  norm_num [differenceDegrees, abs]

/-- Claim C2 (amended): the harmonization bypass triggers exactly on the
selector spelling `monochrome` (the literal string compared by both per-slot
loops): under that spelling every slot of both engines passes through
unmodified, and in the colorscheming engine that same spelling also selects
the monochrome scheme class.  In the material-theme engine, however, the
spelling `monochrome` dispatches to the tonal-spot scheme class, and the
spelling `scheme-monochrome` — the one that selects the monochrome scheme
class there — does not bypass harmonization (see the counterexample). -/
theorem monochrome_bypass (ma : MtArgs) (ca : CsArgs)
    (accent onS pk scl os : Hct) (slot : String) (val : Hct)
    (hm : ma.scheme = "monochrome") (hc : ca.scheme = "monochrome") :
    mtSlot ma accent onS slot val = val
    ∧ csSlot ca pk scl os slot val = val
    ∧ csSchemeClass "monochrome" = SchemeClass.monochrome
    ∧ mtSchemeClass "monochrome" = SchemeClass.tonalSpot := by
  refine ⟨?_, ?_, by decide, by decide⟩
  · unfold mtSlot
    rw [if_pos hm]
  · unfold csSlot
    rw [if_pos hc]

/-- Witness for the C2 theorem: both loops pass a concrete red slot through
unchanged under the selector spelling `monochrome`. -/
theorem monochrome_bypass_witness :
    mtSlot ⟨"monochrome", 4 / 5, 100, 7 / 20, false, true⟩
        ⟨10, 50, 50⟩ ⟨10, 8, 90⟩ "term1" ⟨350, 40, 50⟩ = ⟨350, 40, 50⟩
    ∧ csSlot ⟨"monochrome", 4 / 5, 100, 7 / 20, false, true⟩
        ⟨10, 50, 50⟩ ⟨10, 5, 10⟩ ⟨10, 8, 90⟩ "term1" ⟨350, 40, 50⟩ = ⟨350, 40, 50⟩ := by
  obtain ⟨h1, h2, h3, h4⟩ := monochrome_bypass
    ⟨"monochrome", 4 / 5, 100, 7 / 20, false, true⟩
    ⟨"monochrome", 4 / 5, 100, 7 / 20, false, true⟩
    ⟨10, 50, 50⟩ ⟨10, 8, 90⟩ ⟨10, 50, 50⟩ ⟨10, 5, 10⟩ ⟨10, 8, 90⟩
    "term1" ⟨350, 40, 50⟩ rfl rfl
  exact ⟨h1, h2⟩

/-- Counterexample to claim C2 as stated: in the material-theme engine the
selector spelling `scheme-monochrome` selects the monochrome scheme class,
yet the per-slot loop (which compares against the literal `monochrome`) still
harmonizes: a `term1` slot of chroma 40 comes out with the forced chroma 90,
so the harmonized palette differs from the source palette. -/
theorem scheme_monochrome_counterexample :
    mtSchemeClass "scheme-monochrome" = SchemeClass.monochrome
    ∧ mtSlot ⟨"scheme-monochrome", 4 / 5, 100, 7 / 20, false, true⟩
        ⟨0, 0, 0⟩ ⟨0, 8, 90⟩ "term1" ⟨0, 40, 50⟩ ≠ ⟨0, 40, 50⟩ := by
  refine ⟨by decide, ?_⟩
  intro hcon
  have hchroma : (mtSlot ⟨"scheme-monochrome", 4 / 5, 100, 7 / 20, false, true⟩
      ⟨0, 0, 0⟩ ⟨0, 8, 90⟩ "term1" ⟨0, 40, 50⟩).chroma = 90 := by
    simp only [mtSlot]
    rw [if_neg (show ¬ ("scheme-monochrome" = "monochrome") by decide),
      if_neg (show ¬ ("term1" = "term0") by decide),
      if_neg (show ¬ ("term1" = "term8") by decide),
      if_neg (show ¬ (false = true ∧ "term1" = "term15") by decide)]
    simp [mtTargetChromaTone]
  rw [hcon] at hchroma
  norm_num at hchroma

/-- Claim C10: parameter inertness of the material-theme per-slot loop.  Two
runs identical except for `harmonize_threshold` produce identical harmonized
slots (the loop never reads the threshold); two runs that differ only in
`harmony` coincide whenever `min(h1*1.3, 0.95) = min(h2*1.3, 0.95)`; and for
every harmony value at least `19/26 = 0.95/1.3` (which includes the default
`0.8`) the output equals the output at `19/26` — the effective harmony
saturates at `0.95`. -/
theorem mt_parameter_inert (s : String) (h1 h2 t1 t2 b : ℚ) (bf dm : Bool)
    (accent onS val : Hct) (slot : String) :
    mtSlot ⟨s, h1, t1, b, bf, dm⟩ accent onS slot val
        = mtSlot ⟨s, h1, t2, b, bf, dm⟩ accent onS slot val
    ∧ (min (h1 * 1.3) 0.95 = min (h2 * 1.3) 0.95 →
        mtSlot ⟨s, h1, t1, b, bf, dm⟩ accent onS slot val
          = mtSlot ⟨s, h2, t1, b, bf, dm⟩ accent onS slot val)
    ∧ (19 / 26 ≤ h1 →
        mtSlot ⟨s, h1, t1, b, bf, dm⟩ accent onS slot val
          = mtSlot ⟨s, 19 / 26, t1, b, bf, dm⟩ accent onS slot val) := by
  have key : ∀ hx hy : ℚ, effectiveHarmony hx = effectiveHarmony hy →
      mtSlot ⟨s, hx, t1, b, bf, dm⟩ accent onS slot val
        = mtSlot ⟨s, hy, t1, b, bf, dm⟩ accent onS slot val := by
    intro hx hy he
    unfold mtSlot mtTargetHue
    dsimp only
    rw [he]
  refine ⟨rfl, ?_, ?_⟩
  · intro hmin
    exact key h1 h2 hmin
  · intro hge
    apply key
    unfold effectiveHarmony
    rw [min_eq_right (by linarith : (0.95 : ℚ) ≤ h1 * 1.3),
      min_eq_right (by norm_num : (0.95 : ℚ) ≤ 19 / 26 * 1.3)]

/-- Witness for the C10 theorem: the default harmony `0.8` and the value `0.9`
saturate to the same effective harmony, and the loop output is unchanged. -/
theorem mt_parameter_inert_witness :
    min ((4 : ℚ) / 5 * 1.3) 0.95 = min ((9 : ℚ) / 10 * 1.3) 0.95
    ∧ mtSlot ⟨"vibrant", 4 / 5, 100, 7 / 20, false, true⟩
        ⟨10, 50, 50⟩ ⟨10, 8, 90⟩ "term1" ⟨350, 40, 50⟩
      = mtSlot ⟨"vibrant", 9 / 10, 100, 7 / 20, false, true⟩
        ⟨10, 50, 50⟩ ⟨10, 8, 90⟩ "term1" ⟨350, 40, 50⟩ :=
  ⟨by norm_num,
    (mt_parameter_inert "vibrant" (4 / 5) (9 / 10) 100 100 (7 / 20) false true
      ⟨10, 50, 50⟩ ⟨10, 8, 90⟩ ⟨350, 40, 50⟩ "term1").2.1 (by norm_num)⟩

/-- Claim C5 (amended): in the material-theme engine (with blend mode off and
a non-monochrome selector), exactly the two foreground slots receive the
multiplicative tone adjustment: every slot other than `term7`/`term15` is
unchanged when only `term_fg_boost` varies, while `term7` and `term15` get
tone `target * (1 + boost)` in dark mode and `target * (1 - boost)` in light
mode (targets 85/90 dark, 30/25 light).  In the colorscheming engine the
claim fails: its loop multiplies the tone of every non-special slot by the
same boost factor (see the counterexample). -/
theorem mt_fg_boost_frame (s : String) (h t b b1 b2 : ℚ) (bf dm : Bool)
    (accent onS val : Hct) (slot : String) :
    (slot ≠ "term7" → slot ≠ "term15" →
      mtSlot ⟨s, h, t, b1, bf, dm⟩ accent onS slot val
        = mtSlot ⟨s, h, t, b2, bf, dm⟩ accent onS slot val)
    ∧ (s ≠ "monochrome" → bf = false →
      (mtSlot ⟨s, h, t, b, bf, dm⟩ accent onS "term7" val).tone
          = (if dm then (85 : ℚ) else 30) * (1 + b * (if dm then 1 else -1))
      ∧ (mtSlot ⟨s, h, t, b, bf, dm⟩ accent onS "term15" val).tone
          = (if dm then (90 : ℚ) else 25) * (1 + b * (if dm then 1 else -1))) := by
  constructor
  · intro h7 h15
    by_cases hs : s = "monochrome"
    · simp [mtSlot, hs]
    · by_cases h0 : slot = "term0"
      · simp [mtSlot, hs, h0]
      · by_cases h8 : slot = "term8"
        · simp [mtSlot, hs, h0, h8]
        · simp [mtSlot, hs, h0, h8, h7, h15]
  · intro hs hbf
    subst hbf
    constructor
    · simp [mtSlot, hs, mtTargetChromaTone]
    · simp [mtSlot, hs, mtTargetChromaTone]

/-- Witness for the C5 theorem: slot `term1` is unchanged when the boost moves
from the default `0.35` to `0`, and `term7` receives exactly the boosted
tone, at concrete inputs. -/
theorem mt_fg_boost_frame_witness :
    ("term1" : String) ≠ "term7"
    ∧ mtSlot ⟨"vibrant", 4 / 5, 100, 7 / 20, false, true⟩
        ⟨10, 50, 50⟩ ⟨10, 8, 90⟩ "term1" ⟨350, 40, 50⟩
      = mtSlot ⟨"vibrant", 4 / 5, 100, 0, false, true⟩
        ⟨10, 50, 50⟩ ⟨10, 8, 90⟩ "term1" ⟨350, 40, 50⟩
    ∧ (mtSlot ⟨"vibrant", 4 / 5, 100, 7 / 20, false, true⟩
        ⟨10, 50, 50⟩ ⟨10, 8, 90⟩ "term7" ⟨0, 10, 80⟩).tone
      = (if true then (85 : ℚ) else 30) * (1 + 7 / 20 * (if true then 1 else -1)) :=
  ⟨by decide,
    (mt_fg_boost_frame "vibrant" (4 / 5) 100 (7 / 20) (7 / 20) 0 false true
      ⟨10, 50, 50⟩ ⟨10, 8, 90⟩ ⟨350, 40, 50⟩ "term1").1 (by decide) (by decide),
    ((mt_fg_boost_frame "vibrant" (4 / 5) 100 (7 / 20) (7 / 20) 0 false true
      ⟨10, 50, 50⟩ ⟨10, 8, 90⟩ ⟨0, 10, 80⟩ "term1").2 (by decide) rfl).1⟩

/-- Counterexample to claim C5 as stated: in the colorscheming engine the
boost is not foreground-only — varying only `term_fg_boost` changes the
harmonized `term1` slot (tone 50 becomes `50 * 1.35 = 67.5` at the default
boost versus 50 at boost 0). -/
theorem cs_fg_boost_counterexample :
    csSlot ⟨"vibrant", 4 / 5, 100, 7 / 20, false, true⟩ ⟨0, 50, 50⟩ ⟨0, 5, 10⟩ ⟨0, 8, 90⟩
        "term1" ⟨0, 40, 50⟩
      ≠ csSlot ⟨"vibrant", 4 / 5, 100, 0, false, true⟩ ⟨0, 50, 50⟩ ⟨0, 5, 10⟩ ⟨0, 8, 90⟩
        "term1" ⟨0, 40, 50⟩ := by
  intro hcon
  have h1 : (csSlot ⟨"vibrant", 4 / 5, 100, 7 / 20, false, true⟩ ⟨0, 50, 50⟩ ⟨0, 5, 10⟩
      ⟨0, 8, 90⟩ "term1" ⟨0, 40, 50⟩).tone = 135 / 2 := by
    simp [csSlot, boostChromaTone, harmonize]
    norm_num
  have h2 : (csSlot ⟨"vibrant", 4 / 5, 100, 0, false, true⟩ ⟨0, 50, 50⟩ ⟨0, 5, 10⟩
      ⟨0, 8, 90⟩ "term1" ⟨0, 40, 50⟩).tone = 50 := by
    simp [csSlot, boostChromaTone, harmonize]
  rw [hcon, h2] at h1
  norm_num at h1

/-- Claim C4 (amended): in the material-theme engine (non-monochrome
selector, blend mode off, default foreground boost `0.35`), the dark-mode
legibility floor holds for every source palette and accent: `term0` is
synthesized at tone 6 while `term7` and `term15` receive tones
`85 * 1.35 = 114.75` and `90 * 1.35 = 121.5`, so both exceed the `term0` tone
by far more than 40 tone units.  The light-mode inverse of the claim fails:
`term0` is synthesized at the fixed dark tone 6 regardless of mode (see the
counterexample). -/
theorem mt_legibility_floor_dark (a : MtArgs) (accent onS v0 v7 v15 : Hct)
    (hm : a.scheme ≠ "monochrome") (hb : a.blendBgFg = false)
    (hd : a.darkmode = true) (hboost : a.termFgBoost = 7 / 20) :
    (mtSlot a accent onS "term0" v0).tone + 40 ≤ (mtSlot a accent onS "term7" v7).tone
    ∧ (mtSlot a accent onS "term0" v0).tone + 40
        ≤ (mtSlot a accent onS "term15" v15).tone := by
  have h0 : (mtSlot a accent onS "term0" v0).tone = 6 := by
    simp [mtSlot, hm, hb]
  have h7 : (mtSlot a accent onS "term7" v7).tone = 459 / 4 := by
    simp [mtSlot, hm, hb, hd, hboost, mtTargetChromaTone]
    norm_num
  have h15 : (mtSlot a accent onS "term15" v15).tone = 243 / 2 := by
    simp [mtSlot, hm, hb, hd, hboost, mtTargetChromaTone]
    norm_num
  rw [h0, h7, h15]
  norm_num

/-- Witness for the C4 theorem at concrete inputs (default dark-mode run). -/
theorem mt_legibility_floor_dark_witness :
    (mtSlot ⟨"vibrant", 4 / 5, 100, 7 / 20, false, true⟩
        ⟨10, 50, 50⟩ ⟨10, 8, 90⟩ "term0" ⟨0, 10, 20⟩).tone + 40
      ≤ (mtSlot ⟨"vibrant", 4 / 5, 100, 7 / 20, false, true⟩
        ⟨10, 50, 50⟩ ⟨10, 8, 90⟩ "term7" ⟨0, 10, 80⟩).tone :=
  (mt_legibility_floor_dark ⟨"vibrant", 4 / 5, 100, 7 / 20, false, true⟩
    ⟨10, 50, 50⟩ ⟨10, 8, 90⟩ ⟨0, 10, 20⟩ ⟨0, 10, 80⟩ ⟨0, 10, 95⟩
    (by decide) rfl rfl rfl).1

/-- Counterexample to claim C4 as stated: in light mode the inverse floor
fails — `term0` is still synthesized at tone 6 (the loop has no light-mode
branch for the background), while `term7` receives tone
`30 * (1 - 0.35) = 19.5`, so the `term0` tone does not exceed the `term7`
tone by 40 units (it is below it minus 40 by a wide margin). -/
theorem mt_legibility_floor_light_counterexample :
    ¬ ((mtSlot ⟨"vibrant", 4 / 5, 100, 7 / 20, false, false⟩
          ⟨10, 50, 50⟩ ⟨10, 8, 90⟩ "term7" ⟨0, 10, 80⟩).tone + 40
        ≤ (mtSlot ⟨"vibrant", 4 / 5, 100, 7 / 20, false, false⟩
          ⟨10, 50, 50⟩ ⟨10, 8, 90⟩ "term0" ⟨0, 10, 20⟩).tone) := by
  have h0 : (mtSlot ⟨"vibrant", 4 / 5, 100, 7 / 20, false, false⟩
      ⟨10, 50, 50⟩ ⟨10, 8, 90⟩ "term0" ⟨0, 10, 20⟩).tone = 6 := by
    simp [mtSlot]
  have h7 : (mtSlot ⟨"vibrant", 4 / 5, 100, 7 / 20, false, false⟩
      ⟨10, 50, 50⟩ ⟨10, 8, 90⟩ "term7" ⟨0, 10, 80⟩).tone = 39 / 2 := by
    simp [mtSlot, mtTargetChromaTone]
    norm_num
  rw [h0, h7]
  norm_num

/-- Claim C3: scheme completeness with fallback.  For every selector string,
dark/light flag and accent, scheme generation succeeds (the dispatch is total
and generation is a total function) and the resulting role mapping contains
every required role name, in both engines; a selector outside the dispatched
set produces exactly the mapping the tonal-spot strategy produces for the
same accent and flag (in the colorscheming engine the selector is first
normalized with the `scheme-` marker, so its unknown selectors are those
whose normalized form is unknown). -/
theorem scheme_completeness_fallback (s : String) (accent : Hct) (dark : Bool)
    (r : String) :
    (r ∈ requiredRoleNames →
      hasRole (mtMaterialColors s accent dark) r = true
      ∧ hasRole (csMaterialColors s accent dark) r = true)
    ∧ (s ∉ knownMtSelectors →
        mtMaterialColors s accent dark = mtMaterialColors "scheme-tonal-spot" accent dark)
    ∧ (csSchemeName s ∉ knownMtSelectors →
        csMaterialColors s accent dark = csMaterialColors "tonal-spot" accent dark) := by
  refine ⟨?_, ?_, ?_⟩
  · intro hr
    exact ⟨hasRole_scheme_append (mtSchemeClass s) accent dark r hr,
      hasRole_scheme_append (csSchemeClass s) accent dark r hr⟩
  · intro hunk
    unfold mtMaterialColors
    rw [mtSchemeClass_of_unknown s hunk,
      (by decide : mtSchemeClass "scheme-tonal-spot" = SchemeClass.tonalSpot)]
  · intro hunk
    unfold csMaterialColors
    rw [csSchemeClass_of_unknown s hunk,
      (by decide : csSchemeClass "tonal-spot" = SchemeClass.tonalSpot)]

/-- Witness for the C3 theorem: the unknown selector `bogus` still yields the
`primary` role and exactly the tonal-spot mapping. -/
theorem scheme_completeness_fallback_witness :
    ("primary" ∈ requiredRoleNames)
    ∧ hasRole (mtMaterialColors "bogus" ⟨10, 50, 50⟩ true) "primary" = true
    ∧ ("bogus" ∉ knownMtSelectors)
    ∧ mtMaterialColors "bogus" ⟨10, 50, 50⟩ true
        = mtMaterialColors "scheme-tonal-spot" ⟨10, 50, 50⟩ true := by
  have hcf := scheme_completeness_fallback "bogus" ⟨10, 50, 50⟩ true "primary"
  exact ⟨by decide, (hcf.1 (by decide)).1, by decide, hcf.2.1 (by decide)⟩

/-- Claim C6 (amended): the resize policy of `calculate_optimal_size`: when
the image area is within the bitmap area the dimensions are returned
unchanged; the image is never upscaled (each computed dimension is bounded by
the original); and when downscaling, each computed dimension `k` (unless it
is the floor-to-1 of a rounded 0) satisfies the rounding bound
`((2k-1) * area)^2 ≤ 4 * dim^2 * size^2 * area`, i.e. it is within one half
of the exact scaled value `dim * sqrt(size^2 / area)` — the exact scaled area
equals `size^2`, but after rounding the pixel area can exceed `size^2` (see
the counterexample), so the claimed hard area bound holds only up to
rounding. -/
theorem calculate_optimal_size_policy (w h s : ℕ) (hw : 1 ≤ w) (hh : 1 ≤ h) :
    (w * h ≤ s * s → calculate_optimal_size w h s = (w, h))
    ∧ (calculate_optimal_size w h s).1 ≤ w
    ∧ (calculate_optimal_size w h s).2 ≤ h
    ∧ (s * s < w * h → 2 ≤ (calculate_optimal_size w h s).1 →
        ((2 * (calculate_optimal_size w h s).1 - 1) * (w * h))
            * ((2 * (calculate_optimal_size w h s).1 - 1) * (w * h))
          ≤ 4 * (w * w * s * s * (w * h)))
    ∧ (s * s < w * h → 2 ≤ (calculate_optimal_size w h s).2 →
        ((2 * (calculate_optimal_size w h s).2 - 1) * (w * h))
            * ((2 * (calculate_optimal_size w h s).2 - 1) * (w * h))
          ≤ 4 * (h * h * s * s * (w * h))) := by
  by_cases harea : s * s < w * h
  · have hcalc : calculate_optimal_size w h s =
        (max 1 (roundDivSqrt (w * w * s * s * (w * h)) (w * h)),
         max 1 (roundDivSqrt (h * h * s * s * (w * h)) (w * h))) := by
      unfold calculate_optimal_size
      rw [if_pos harea]
    have hApos : 0 < w * h := Nat.mul_pos (by omega) (by omega)
    have hkey : ∀ u : ℕ,
        4 * (u * u * s * s * (w * h))
          < ((2 * u + 1) * (w * h)) * ((2 * u + 1) * (w * h)) := by
      intro u
      have hA : s * s + 1 ≤ w * h := harea
      have hexp : (2 * u + 1) * (2 * u + 1) * (s * s + 1)
          = 4 * (u * u * (s * s))
            + (4 * (u * u) + 4 * (u * (s * s)) + 4 * u + s * s + 1) := by
        ring
      have hpos : 0 < 4 * (u * u) + 4 * (u * (s * s)) + 4 * u + s * s + 1 := by
        positivity
      have hstep : 4 * (u * u * (s * s)) < (2 * u + 1) * (2 * u + 1) * (w * h) := by
        calc 4 * (u * u * (s * s))
            < 4 * (u * u * (s * s))
              + (4 * (u * u) + 4 * (u * (s * s)) + 4 * u + s * s + 1) :=
              Nat.lt_add_of_pos_right hpos
          _ = (2 * u + 1) * (2 * u + 1) * (s * s + 1) := hexp.symm
          _ ≤ (2 * u + 1) * (2 * u + 1) * (w * h) := Nat.mul_le_mul_left _ hA
      calc 4 * (u * u * s * s * (w * h)) = (4 * (u * u * (s * s))) * (w * h) := by ring
        _ < ((2 * u + 1) * (2 * u + 1) * (w * h)) * (w * h) :=
            (Nat.mul_lt_mul_right hApos).mpr hstep
        _ = ((2 * u + 1) * (w * h)) * ((2 * u + 1) * (w * h)) := by ring
    have hle1 : roundDivSqrt (w * w * s * s * (w * h)) (w * h) ≤ w :=
      roundDivSqrt_le _ _ _ hApos (hkey w)
    have hle2 : roundDivSqrt (h * h * s * s * (w * h)) (w * h) ≤ h :=
      roundDivSqrt_le _ _ _ hApos (hkey h)
    refine ⟨fun hc => absurd harea (by omega), ?_, ?_, ?_, ?_⟩
    · rw [hcalc]
      exact max_le hw hle1
    · rw [hcalc]
      exact max_le hh hle2
    · intro _ h2
      rw [hcalc] at h2 ⊢
      have h1r : 1 ≤ roundDivSqrt (w * w * s * s * (w * h)) (w * h) := by
        by_contra hcon
        push_neg at hcon
        have hz : roundDivSqrt (w * w * s * s * (w * h)) (w * h) = 0 := by omega
        rw [hz] at h2
        norm_num at h2
      have hreq : max 1 (roundDivSqrt (w * w * s * s * (w * h)) (w * h))
          = roundDivSqrt (w * w * s * s * (w * h)) (w * h) := Nat.max_eq_right h1r
      rw [hreq] at h2 ⊢
      exact roundDivSqrt_sq_bound _ _ _ h1r rfl
    · intro _ h2
      rw [hcalc] at h2 ⊢
      have h1r : 1 ≤ roundDivSqrt (h * h * s * s * (w * h)) (w * h) := by
        by_contra hcon
        push_neg at hcon
        have hz : roundDivSqrt (h * h * s * s * (w * h)) (w * h) = 0 := by omega
        rw [hz] at h2
        norm_num at h2
      have hreq : max 1 (roundDivSqrt (h * h * s * s * (w * h)) (w * h))
          = roundDivSqrt (h * h * s * s * (w * h)) (w * h) := Nat.max_eq_right h1r
      rw [hreq] at h2 ⊢
      exact roundDivSqrt_sq_bound _ _ _ h1r rfl
  · have hcalc : calculate_optimal_size w h s = (w, h) := by
      unfold calculate_optimal_size
      rw [if_neg harea]
    refine ⟨fun _ => hcalc, ?_, ?_, fun hc => absurd hc harea, fun hc => absurd hc harea⟩
    · rw [hcalc]
    · rw [hcalc]

/-- Witness for the C6 theorem at the concrete input width 6, height 1, bitmap
size 2 (which triggers the downscale branch). -/
theorem calculate_optimal_size_policy_witness :
    1 ≤ 6 ∧ (calculate_optimal_size 6 1 2).1 ≤ 6 ∧ (calculate_optimal_size 6 1 2).2 ≤ 1 :=
  ⟨by decide, (calculate_optimal_size_policy 6 1 2 (by decide) (by decide)).2.1,
    (calculate_optimal_size_policy 6 1 2 (by decide) (by decide)).2.2.1⟩

/-- Counterexample to claim C6 as stated: a 6x1 image at bitmap size 2
exceeds the bucket area (6 > 4), and the computed processing dimensions are
(5, 1) — rounding pushes the scaled width 4.899 up to 5 — whose pixel area 5
exceeds the target area 4. -/
theorem calculate_optimal_size_counterexample :
    2 * 2 < 6 * 1
    ∧ 2 * 2 < (calculate_optimal_size 6 1 2).1 * (calculate_optimal_size 6 1 2).2 := by
  decide

/-- Claim C7 (amended): with neither an image path nor a literal color, the
colorscheming engine aborts with its explicit input error before scheme
generation and with an empty write trace (no cache file, no renderer
configuration), and the material-theme engine also writes nothing but dies
with an uncaught `NameError` at scheme construction rather than a reported
input error; and an invocation proceeds if and only if at least one of the
two inputs is present — when both are given the image branch wins and the
run proceeds, so "exactly one" is not enforced (see the counterexample). -/
theorem missing_input_guard (p c k : Option Unit) (nt : Bool) :
    csRun none none k nt
        = ([], Except.error
            (RunErr.inputError "Error: Must provide either --path or --color"))
    ∧ mtRun none none k = ([], Except.error (RunErr.nameError "hct"))
    ∧ (csRun p c k nt).2.isOk = (p.isSome || c.isSome)
    ∧ (mtRun p c k).2.isOk = (p.isSome || c.isSome) := by
  refine ⟨rfl, rfl, ?_, ?_⟩ <;>
    cases p <;> cases c <;> simp [csRun, mtRun, Except.isOk, Except.toBool]

/-- Counterexample to claim C7 as stated: providing both an image path and a
literal color does not fail — both engines proceed (taking the image branch),
so it is not the case that exactly one of the two inputs must be provided for
the invocation to proceed. -/
theorem both_inputs_counterexample :
    (csRun (some ()) (some ()) none false).2 = Except.ok ()
    ∧ (mtRun (some ()) (some ()) none).2 = Except.ok () :=
  ⟨rfl, rfl⟩

/-- Claim C8: flat-palette remapping.  A terminal palette definition with
neither a `dark` nor a `light` key is remapped by
`convert_catppuccin_to_terminal_colors`: the source-palette selection of the engine
returns exactly the converted mapping, whose keys are exactly
`term0`..`term15` in order, and each slot is taken from its fixed semantic
role with the fixed built-in default hex value when the role is absent
(base, red, green, yellow, blue, pink, teal, text, surface2, subtext1, with
red/green/yellow/blue/pink/teal feeding both the normal and bright slots).
Downstream harmonization then proceeds on these sixteen slots as usual. -/
theorem catppuccin_remap (loaded : List (String × Json)) (dark : Bool)
    (hd : hasKeyJ loaded "dark" = false) (hl : hasKeyJ loaded "light" = false) :
    termSourceColors loaded dark
        = some (convert_catppuccin_to_terminal_colors loaded)
    ∧ (convert_catppuccin_to_terminal_colors loaded).map Prod.fst = termSlotNames
    ∧ ∀ e ∈ catppuccinSlotTable,
        dictGetS (convert_catppuccin_to_terminal_colors loaded) e.1 ""
          = dictGetJ loaded e.2.1 e.2.2 := by
  refine ⟨?_, rfl, ?_⟩
  · unfold termSourceColors
    rw [hd, hl]
    simp
  · intro e he
    fin_cases he <;> rfl

/-- Witness for the C8 theorem: a two-role flat definition (base and red only)
is remapped, with every other slot falling back to its built-in default. -/
theorem catppuccin_remap_witness :
    hasKeyJ [("base", Json.str "#11111b"), ("red", Json.str "#ff5555")] "dark" = false
    ∧ termSourceColors [("base", Json.str "#11111b"), ("red", Json.str "#ff5555")] true
        = some (convert_catppuccin_to_terminal_colors
            [("base", Json.str "#11111b"), ("red", Json.str "#ff5555")])
    ∧ (convert_catppuccin_to_terminal_colors
          [("base", Json.str "#11111b"), ("red", Json.str "#ff5555")]).map Prod.fst
        = termSlotNames :=
  ⟨by decide,
    (catppuccin_remap [("base", Json.str "#11111b"), ("red", Json.str "#ff5555")] true
      (by decide) (by decide)).1,
    (catppuccin_remap [("base", Json.str "#11111b"), ("red", Json.str "#ff5555")] true
      (by decide) (by decide)).2.1⟩

/-- Claim C9 (amended): best-effort git configuration.  Whenever the two
lazygit diff colors and the two terminal slots the function reads are present
in its inputs, and the subprocess environment raises only the two caught
exception classes (`CalledProcessError`, covering a nonzero exit of the tool,
and `FileNotFoundError`, covering an entirely absent binary) or succeeds, the
call returns normally — no exception reaches the caller, and the palette
inputs are unchanged (the function only reads them).  For other inputs the
claim as stated fails: the color dictionary is built by plain subscription
before the `try` block, so a missing key raises `KeyError` to the caller (see
the counterexample), and an exception class other than the two caught ones
would also propagate. -/
theorem configure_git_best_effort (env : String × String → GitOutcome)
    (lg tc : List (String × String))
    (h1 : (lg.find? (fun p => p.1 == "unstagedChanges")).isSome = true)
    (h2 : (lg.find? (fun p => p.1 == "stagedChanges")).isSome = true)
    (h3 : (tc.find? (fun p => p.1 == "term4")).isSome = true)
    (h4 : (tc.find? (fun p => p.1 == "term5")).isSome = true)
    (henv : ∀ cmd, env cmd ≠ GitOutcome.otherError) :
    raisesToCaller (configure_git_diff_colors env lg tc) = false := by
  obtain ⟨p1, hp1⟩ := Option.isSome_iff_exists.mp h1
  obtain ⟨p2, hp2⟩ := Option.isSome_iff_exists.mp h2
  obtain ⟨p3, hp3⟩ := Option.isSome_iff_exists.mp h3
  obtain ⟨p4, hp4⟩ := Option.isSome_iff_exists.mp h4
  unfold configure_git_diff_colors dictLookup
  rw [hp1, hp2, hp3, hp4]
  cases hrun : runGitCmds env (gitCmds p1.2 p2.2 p3.2 p3.2 p4.2) with
  | success => simp [raisesToCaller, hrun]
  | calledProcessError => simp [raisesToCaller, hrun]
  | fileNotFoundError => simp [raisesToCaller, hrun]
  | otherError => exact absurd hrun (runGitCmds_ne_other env henv _)

/-- Witness for the C9 theorem: with the `git` binary entirely absent (every
invocation raises `FileNotFoundError`) and well-formed inputs, the call
returns normally. -/
theorem configure_git_best_effort_witness :
    (([("unstagedChanges", "#AA6677"), ("stagedChanges", "#66AA88")]
        : List (String × String)).find?
          (fun p => p.1 == "unstagedChanges")).isSome = true
    ∧ raisesToCaller (configure_git_diff_colors (fun _ => GitOutcome.fileNotFoundError)
        [("unstagedChanges", "#AA6677"), ("stagedChanges", "#66AA88")]
        [("term4", "#4477AA"), ("term5", "#AA66AA")]) = false :=
  ⟨by decide,
    configure_git_best_effort (fun _ => GitOutcome.fileNotFoundError)
      [("unstagedChanges", "#AA6677"), ("stagedChanges", "#66AA88")]
      [("term4", "#4477AA"), ("term5", "#AA66AA")]
      (by decide) (by decide) (by decide) (by decide) (fun cmd => by simp)⟩

/-- Counterexample to claim C9 as stated: with a terminal palette missing
`term4` (and a subprocess environment that never fails at all), the call
raises `KeyError` to its caller — the dictionary subscription happens before
the `try` block — so the step does not catch every cause for every input. -/
theorem configure_git_key_error_counterexample :
    raisesToCaller (configure_git_diff_colors (fun _ => GitOutcome.success)
      [("unstagedChanges", "#AA6677"), ("stagedChanges", "#66AA88")] []) = true := by
  decide
